import Mathlib

/-!
Shallow embedding of the FlutterBridgeSDK message correlation and dispatch
engine (src/index.ts).  The SDK keeps a map of pending request promises keyed
by a generated identifier, a map of event listeners keyed by action name, and
one-shot timeout timers.  We model:

  * the JS Map structures as association lists over String keys (JS Map
    semantics: set replaces the value in place, delete removes the entry);
  * the maps mutated by the class methods as an explicit BridgeState record;
  * promise resolution and rejection as emitted Completion values keyed by the
    request identifier (the stored resolve and reject closures in the source
    are exactly the two continuations of the promise for that identifier);
  * window.setTimeout and clearTimeout as an activeTimers list plus a fresh
    timer counter; firing a one-shot timer consumes it;
  * a parsed inbound payload as a record with Option fields, where a field
    that is absent, JSON null, or of the wrong runtime type is none; the JS
    check "typeof payload.id !== 'string'" corresponds to id = none, and a
    falsy parsed value (JSON null etc.) behaves exactly like the all-none
    record on every code path, so it is identified with it;
  * JSON.parse failure of the raw inbound string as dispatching the value
    none: the source catches the exception, logs, and returns;
  * event callbacks as opaque references (Nat), matching the JS Set reference
    equality used by eventListeners; the semantic behaviour of a callback is a
    HandlerEnv function mapping the reference and the event data to the
    eventual outcome of the returned promise;
  * the acknowledgement channel readiness (window lookup of
    options.innerChannel) as a Bool captured at dispatch time, exactly where
    the source captures const innerBridge before awaiting readiness.
-/

namespace FlutterBridge

/-- Association list lookup, modelling JS Map.get / Map.has over String keys. -/
def alGet {α : Type} : List (String × α) → String → Option α
  | [], _ => none
  | (k, v) :: t, k' => if k = k' then some v else alGet t k'

/-- Association list update, modelling JS Map.set: replaces the value in place
when the key is present, appends otherwise. -/
def alSet {α : Type} : List (String × α) → String → α → List (String × α)
  | [], k, v => [(k, v)]
  | (k0, v0) :: t, k, v => if k0 = k then (k, v) :: t else (k0, v0) :: alSet t k v

/-- Association list removal, modelling JS Map.delete. -/
def alDel {α : Type} : List (String × α) → String → List (String × α)
  | [], _ => []
  | (k0, v0) :: t, k => if k0 = k then alDel t k else (k0, v0) :: alDel t k

/-- The keys of the association list are pairwise distinct (a JS Map can hold
at most one entry per key). -/
def keysNodup {α : Type} (l : List (String × α)) : Prop :=
  (l.map Prod.fst).Nodup

/-- A pending request entry.  The source stores the resolve and reject
closures together with the timer id; we store the timer id and, in place of
the closures of the timeout callback, the action, timeout duration and timer
it captured (completions are emitted keyed by the request identifier). -/
structure PendingPromise where
  action : String
  timeoutMs : Nat
  timer : Nat
deriving DecidableEq

/-- A parsed inbound message envelope (src/type.ts Payload), with every field
optional: none models a field that is absent, null, or not of the declared
runtime type. -/
structure Payload (D : Type) where
  action : Option String
  id : Option String
  data : Option D
  code : Option Int
  errorMessage : Option String
deriving DecidableEq

/-- An acknowledgement envelope sent over the inner channel after running an
event listener.  JSON.stringify drops undefined fields, hence the Option
action, data and id. -/
structure Ack (D : Type) where
  action : Option String
  data : Option D
  id : Option String
  code : Int
deriving DecidableEq

/-- The error carried by a rejected request promise. -/
inductive BridgeError where
  /-- new Error(failure message) with the code field of the envelope attached
  to the error object. -/
  | response (message : String) (code : Option Int)
  /-- The timeout rejection. -/
  | timeout (message : String)
  /-- The synchronous send failure rejection (JSON.stringify or the native
  postMessage call threw); the thrown value is forwarded as-is. -/
  | send
  /-- The missing-valid-ID rejection of the dead branch in dispatch. -/
  | missingId (message : String)
deriving DecidableEq

/-- A settlement of a pending request promise. -/
inductive Completion (D : Type) where
  | resolved (id : String) (data : Option D)
  | rejected (id : String) (err : BridgeError)
deriving DecidableEq

/-- The identifier whose promise the completion settles. -/
def Completion.cid {D : Type} : Completion D → String
  | .resolved i _ => i
  | .rejected i _ => i

/-- The completions settling a given identifier. -/
def completionsFor {D : Type} (id : String) (cs : List (Completion D)) :
    List (Completion D) :=
  cs.filter (fun c => c.cid == id)

/-- Whether a completion is one of the four kinds the specification names:
resolve by response, reject by response, reject by timeout, reject by send
failure. -/
def completionKindOK {D : Type} : Completion D → Bool
  | .rejected _ (BridgeError.missingId _) => false
  | _ => true

/-- The mutable state of a FlutterBridgeSDK instance: the two maps, the
scheduled one-shot timers, and the fresh-timer counter. -/
structure BridgeState (D : Type) where
  pendingPromises : List (String × PendingPromise)
  eventListeners : List (String × List Nat)
  activeTimers : List Nat
  nextTimer : Nat
deriving DecidableEq

/-- The semantic behaviour of event callbacks: given the callback reference
and the event data, the eventual outcome of the promise the callback
returns. -/
def HandlerEnv (D : Type) : Type := Nat → Option D → Except Unit (Option D)

/-- Remove a timer id from the scheduled timers (clearTimeout, or the runtime
consuming a one-shot timer when it fires). -/
def eraseTimer (l : List Nat) (t : Nat) : List Nat :=
  l.filter (fun x => x != t)

/-- JS truthiness of the action field as used in the guards
"payload.action && this.eventListeners.has(payload.action)": a missing action
and the empty string are both falsy. -/
def actionKey {D : Type} (p : Payload D) : Option String :=
  match p.action with
  | some a => if a = "" then none else some a
  | none => none

/-- pendingPromises lookup by the id field of the envelope, pairing the key
with the entry.  A missing or non-string id can never equal one of the string
keys generated by nanoid, so the lookup is none. -/
def lookupPending {D : Type} (st : BridgeState D) : Option String → Option (String × PendingPromise)
  | some s => (alGet st.pendingPromises s).map (fun e => (s, e))
  | none => none

/-- The success and failure classification of a response envelope
(src/index.ts lines 90-93): success when code is non-null and in [200, 300),
or when code and errorMessage are both null or absent. -/
def isSuccessResponse {D : Type} (p : Payload D) : Bool :=
  match p.code, p.errorMessage with
  | some c, _ => 200 ≤ c && c < 300
  | none, none => true
  | none, some _ => false

/-- The code part of the synthesized failure message: the template literal
interpolates payload.code or the string unknown when code is falsy, which in
JS is when it is absent, null, or the number 0. -/
def codeText (c : Option Int) : String :=
  match c with
  | some v => if v = 0 then "unknown" else toString v
  | none => "unknown"

/-- The failure message (src/index.ts lines 97-100):
payload.errorMessage when it is truthy (present and non-empty), else the
synthesized message naming the code. -/
def failureMessage {D : Type} (p : Payload D) : String :=
  match p.errorMessage with
  | some m => if m = "" then "Flutter request failed with code " ++ codeText p.code else m
  | none => "Flutter request failed with code " ++ codeText p.code

/-- The timeout rejection message (src/index.ts lines 187-189). -/
def timeoutMessage (action id : String) (timeoutMs : Nat) : String :=
  "FlutterBridgeSDK: Request timed out for action \"" ++ action ++ "\" (id: " ++ id
    ++ ") after " ++ toString timeoutMs ++ "ms"

/-- The rejection message of the dead missing-valid-ID branch. -/
def missingIdMessage : String :=
  "Received response from Flutter is missing a valid ID."

/-- The settlement a response envelope produces for the pending request with
identifier s: resolve with the data field on a success classification, reject
with the failure error otherwise. -/
def respCompletion {D : Type} (s : String) (p : Payload D) : Completion D :=
  if isSuccessResponse p then Completion.resolved s p.data
  else Completion.rejected s (BridgeError.response (failureMessage p) p.code)

/-- Settling a pending request from a matching response envelope
(src/index.ts lines 83-105): clear the timeout timer, resolve with the data
on a success classification or reject with the failure error otherwise, and
delete the entry. -/
def respondTo {D : Type} (st : BridgeState D) (s : String) (e : PendingPromise)
    (p : Payload D) : BridgeState D × List (Completion D) :=
  let st1 : BridgeState D := { st with activeTimers := eraseTimer st.activeTimers e.timer }
  ({ st1 with pendingPromises := alDel st1.pendingPromises s }, [respCompletion s p])

/-- rejectPendingPromise (src/index.ts lines 149-156): if the id is pending,
clear its timer, reject with the given error, and delete the entry. -/
def rejectPendingPromise {D : Type} (st : BridgeState D) (id : String) (err : BridgeError) :
    BridgeState D × List (Completion D) :=
  match alGet st.pendingPromises id with
  | some e =>
      let st1 : BridgeState D := { st with activeTimers := eraseTimer st.activeTimers e.timer }
      ({ st1 with pendingPromises := alDel st1.pendingPromises id },
        [Completion.rejected id err])
  | none => (st, [])

/-- The acknowledgement envelope produced for one event callback, according to
the eventual outcome of the promise the callback returns (src/index.ts lines
115-135): on success, action, data = result, id and code 200; on a thrown
error or rejection, action, id and code 500. -/
def ackOf {D : Type} (env : HandlerEnv D) (p : Payload D) (cb : Nat) : Ack D :=
  match env cb p.data with
  | Except.ok r => { action := p.action, data := r, id := p.id, code := 200 }
  | Except.error _ => { action := p.action, data := none, id := p.id, code := 500 }

/-- The event-handling arm of dispatch (src/index.ts lines 107-135).  The
source captures const innerBridge = getBridge(innerChannel) before the
readiness check; when the captured value is null it awaits
waitForBridgeReady() but keeps sending through the stale captured reference
with optional chaining, so none of the acknowledgements is actually delivered.
Each callback runs inside its own try/catch and the maps are not touched. -/
def handleEvent {D : Type} (env : HandlerEnv D) (innerReady : Bool) (st : BridgeState D)
    (p : Payload D) (l : List Nat) : BridgeState D × List (Completion D) × List (Ack D) :=
  if innerReady then (st, [], l.map (ackOf env p))
  else (st, [], [])

/-- The routing shared by the valid-id and the tolerated missing-id paths of
dispatch (src/index.ts lines 82-141): a pending-id match settles the request;
otherwise a truthy action with registered listeners runs the event arm;
otherwise the message is logged and dropped. -/
def route {D : Type} (env : HandlerEnv D) (innerReady : Bool) (st : BridgeState D)
    (p : Payload D) : BridgeState D × List (Completion D) × List (Ack D) :=
  match lookupPending st p.id with
  | some (s, e) =>
      let r := respondTo st s e p
      (r.1, r.2, [])
  | none =>
      match actionKey p with
      | some a =>
          match alGet st.eventListeners a with
          | some l => handleEvent env innerReady st p l
          | none => (st, [], [])
      | none => (st, [], [])

/-- dispatch (src/index.ts lines 40-142), the single inbound entry point.
The argument none models a raw string JSON.parse throws on: the catch logs
and returns with no state change.  A parsed envelope without a string id
enters the malformed-message triage: if the (non-string) id were pending it
would be rejected with the missing-ID error and control would fall through to
the routing; else, with a truthy action that has registered listeners, the
message is tolerated and routed; else it is dropped. -/
def dispatch {D : Type} (env : HandlerEnv D) (innerReady : Bool) (st : BridgeState D)
    (msg : Option (Payload D)) : BridgeState D × List (Completion D) × List (Ack D) :=
  match msg with
  | none => (st, [], [])
  | some p =>
      match p.id with
      | some _ => route env innerReady st p
      | none =>
          match lookupPending st (none : Option String) with
          | some (s, _) =>
              let r0 := rejectPendingPromise st s (BridgeError.missingId missingIdMessage)
              let r := route env innerReady r0.1 p
              (r.1, r0.2 ++ r.2.1, r.2.2)
          | none =>
              match actionKey p with
              | some a =>
                  if (alGet st.eventListeners a).isSome then route env innerReady st p
                  else (st, [], [])
              | none => (st, [], [])

/-- postMessage (src/index.ts lines 167-215).  The unique id from nanoid and
whether the synchronous JSON.stringify plus native send succeeds are inputs;
the timer id comes from the fresh counter.  The source schedules the timeout
timer, stores the entry, and attempts the send; on a synchronous send failure
it clears the timer, deletes the entry and rejects with the thrown error. -/
def postMessage {D : Type} (st : BridgeState D) (action : String) (_dat : Option D)
    (id : String) (sendOk : Bool) (timeoutMs : Nat) : BridgeState D × List (Completion D) :=
  let timer := st.nextTimer
  let st1 : BridgeState D :=
    { st with activeTimers := timer :: st.activeTimers, nextTimer := st.nextTimer + 1 }
  let st2 : BridgeState D :=
    { st1 with pendingPromises := alSet st1.pendingPromises id ⟨action, timeoutMs, timer⟩ }
  if sendOk then (st2, [])
  else
    let st3 : BridgeState D := { st2 with activeTimers := eraseTimer st2.activeTimers timer }
    ({ st3 with pendingPromises := alDel st3.pendingPromises id },
      [Completion.rejected id BridgeError.send])

/-- The timeout timer of a request firing (src/index.ts lines 182-192).
The runtime consumes the one-shot timer t; the callback body captured the
action, id and timeout duration at scheduling time and, when the id is still
pending, deletes the entry and rejects with the timeout error. -/
def fireTimeout {D : Type} (st : BridgeState D) (id action : String) (timeoutMs : Nat)
    (t : Nat) : BridgeState D × List (Completion D) :=
  let st0 : BridgeState D := { st with activeTimers := eraseTimer st.activeTimers t }
  match alGet st0.pendingPromises id with
  | some _ =>
      ({ st0 with pendingPromises := alDel st0.pendingPromises id },
        [Completion.rejected id (BridgeError.timeout (timeoutMessage action id timeoutMs))])
  | none => (st0, [])

/-- listenMessage (src/index.ts lines 223-255): ensure a listener set exists
for the action; registering the identical callback reference again is a no-op
with a warning; a different callback clears the existing set (evicting any
previously registered listener, with a warning) and is added. -/
def listenMessage {D : Type} (st : BridgeState D) (action : String) (cb : Nat) :
    BridgeState D :=
  let st0 : BridgeState D :=
    if (alGet st.eventListeners action).isSome then st
    else { st with eventListeners := alSet st.eventListeners action [] }
  let cur : List Nat := (alGet st0.eventListeners action).getD []
  if cur.contains cb then st0
  else { st0 with eventListeners := alSet st0.eventListeners action [cb] }

/-- The cancel closure returned by listenMessage (src/index.ts lines 232-239):
every cancel for an action behaves the same; invoking it clears and deletes
whatever is currently registered under that action. -/
def cancelListen {D : Type} (st : BridgeState D) (action : String) : BridgeState D :=
  if (alGet st.eventListeners action).isSome then
    { st with eventListeners := alDel st.eventListeners action }
  else st

/-- At most one active listener per action. -/
def registryAtMostOne {D : Type} (st : BridgeState D) : Prop :=
  ∀ a l, alGet st.eventListeners a = some l → l.length ≤ 1

/-- Modelled from the spec: the success classification exactly as the
specification words it, for comparison with isSuccessResponse of the source:
success when code is present and lies in [200, 300), or when code and
errorMessage are both absent. -/
def specSuccess {D : Type} (p : Payload D) : Prop :=
  (∃ c, p.code = some c ∧ 200 ≤ c ∧ c < 300) ∨ (p.code = none ∧ p.errorMessage = none)

/-- A label naming one atomic step of the bridge. -/
inductive BridgeLabel (D : Type) where
  /-- A postMessage call with its action, data, generated id, synchronous
  send outcome and timeout duration. -/
  | issue (action : String) (dat : Option D) (id : String) (sendOk : Bool) (timeoutMs : Nat)
  /-- An inbound dispatch with the acknowledgement channel readiness and the
  parse result of the raw message. -/
  | deliver (innerReady : Bool) (msg : Option (Payload D))
  /-- A scheduled timeout timer t firing, with the values its callback
  captured. -/
  | expire (id action : String) (timeoutMs : Nat) (t : Nat)

/-- Whether the label is a postMessage call generating the given id. -/
def labelIssues {D : Type} (id : String) : BridgeLabel D → Bool
  | .issue _ _ i _ _ => i == id
  | _ => false

/-- The state and completions a step labelled lab produces from a state. -/
def stepResult {D : Type} (env : HandlerEnv D) :
    BridgeLabel D → BridgeState D → BridgeState D × List (Completion D)
  | BridgeLabel.issue a dat id ok tms, st => postMessage st a dat id ok tms
  | BridgeLabel.deliver ir m, st => ((dispatch env ir st m).1, (dispatch env ir st m).2.1)
  | BridgeLabel.expire id a tms t, st => fireTimeout st id a tms t

/-- The side condition for a step to be enabled: a timer may only fire while
scheduled, and the values its closure captured agree with the entry it may
settle; postMessage and dispatch are always enabled. -/
def stepOK {D : Type} : BridgeLabel D → BridgeState D → Prop
  | BridgeLabel.expire id a tms t, st =>
      t ∈ st.activeTimers ∧ ∀ e, alGet st.pendingPromises id = some e →
        e.timer = t ∧ e.action = a ∧ e.timeoutMs = tms
  | _, _ => True

/-- One atomic step of the bridge. -/
def Step {D : Type} (env : HandlerEnv D) (lab : BridgeLabel D)
    (st1 st2 : BridgeState D) (cs : List (Completion D)) : Prop :=
  stepOK lab st1 ∧ st2 = (stepResult env lab st1).1 ∧ cs = (stepResult env lab st1).2

/-- A finite run of the bridge, collecting the labels and the emitted
completions. -/
inductive Trace {D : Type} (env : HandlerEnv D) :
    List (BridgeLabel D) → BridgeState D → BridgeState D → List (Completion D) → Prop where
  | nil (st : BridgeState D) : Trace env [] st st []
  | cons (lab : BridgeLabel D) (ls : List (BridgeLabel D)) (st st1 st2 : BridgeState D)
      (cs cs' : List (Completion D)) (h : Step env lab st st1 cs)
      (h' : Trace env ls st1 st2 cs') : Trace env (lab :: ls) st st2 (cs ++ cs')

/-- A plain success response envelope carrying a payload for a given request
identifier: code 200 and no error message. -/
def successEnvelope {D : Type} (id : String) (d : Option D) : Payload D :=
  { action := none, id := some id, data := d, code := some 200, errorMessage := none }

/-! Concrete fixtures used by the closed witness and counterexample
theorems. -/

/-- A concrete callback environment: reference 5 fulfills with 1, every
other reference rejects. -/
def envW : HandlerEnv Nat :=
  fun cb _ => if cb = 5 then Except.ok (some 1) else Except.error ()

/-- A concrete state with requests A and B pending and a listener with
reference 5 registered for action evt. -/
def stW : BridgeState Nat :=
  { pendingPromises := [("A", { action := "act", timeoutMs := 100, timer := 0 }),
      ("B", { action := "act2", timeoutMs := 100, timer := 1 })],
    eventListeners := [("evt", [5])], activeTimers := [0, 1], nextTimer := 2 }

/-- A response envelope holding only an id: no code, no errorMessage, no
data. -/
def pOnlyId : Payload Nat :=
  { action := none, id := some "A", data := none, code := none, errorMessage := none }

/-- A response envelope with the JS-falsy failure fields: code 0 and empty
errorMessage. -/
def pFalsy : Payload Nat :=
  { action := none, id := some "A", data := none, code := some 0, errorMessage := some "" }

/-- An event envelope for the registered action evt. -/
def pEvt : Payload Nat :=
  { action := some "evt", id := some "E1", data := some 3, code := none, errorMessage := none }

/-- A state with a single listener with reference 7 registered for action
a. -/
def stDup : BridgeState Nat :=
  { pendingPromises := [], eventListeners := [("a", [7])], activeTimers := [], nextTimer := 0 }

/-! Association list lemmas. -/

theorem alGet_alSet_self {α : Type} (l : List (String × α)) (k : String) (v : α) :
    alGet (alSet l k v) k = some v := by
  induction l with
  | nil => simp [alSet, alGet]
  | cons hd t ih =>
    obtain ⟨k0, v0⟩ := hd
    by_cases hk : k0 = k
    · simp [alSet, hk, alGet]
    · simp [alSet, hk, alGet, ih]

theorem alGet_alSet_ne {α : Type} (l : List (String × α)) (k k' : String) (v : α)
    (h : k' ≠ k) : alGet (alSet l k v) k' = alGet l k' := by
  induction l with
  | nil => simp [alSet, alGet, Ne.symm h]
  | cons hd t ih =>
    obtain ⟨k0, v0⟩ := hd
    by_cases hk : k0 = k
    · subst hk
      simp [alSet, alGet, Ne.symm h]
    · simp only [alSet, if_neg hk, alGet]
      by_cases hk' : k0 = k'
      · simp [hk']
      · simp [hk', ih]

theorem alGet_alDel_self {α : Type} (l : List (String × α)) (k : String) :
    alGet (alDel l k) k = none := by
  induction l with
  | nil => simp [alDel, alGet]
  | cons hd t ih =>
    obtain ⟨k0, v0⟩ := hd
    by_cases hk : k0 = k
    · simp [alDel, hk, ih]
    · simp [alDel, hk, alGet, ih]

theorem alGet_alDel_ne {α : Type} (l : List (String × α)) (k k' : String)
    (h : k' ≠ k) : alGet (alDel l k) k' = alGet l k' := by
  induction l with
  | nil => simp [alDel]
  | cons hd t ih =>
    obtain ⟨k0, v0⟩ := hd
    by_cases hk : k0 = k
    · subst hk
      simp only [alDel, if_pos rfl, alGet, Ne.symm h, if_neg (Ne.symm h)]
      exact ih
    · simp only [alDel, if_neg hk, alGet]
      by_cases hk' : k0 = k'
      · simp [hk']
      · simp [hk', ih]

theorem keys_alSet_mem {α : Type} (l : List (String × α)) (k : String) (v : α) (x : String)
    (h : x ∈ (alSet l k v).map Prod.fst) : x = k ∨ x ∈ l.map Prod.fst := by
  induction l with
  | nil => simpa [alSet] using h
  | cons hd t ih =>
    obtain ⟨k0, v0⟩ := hd
    by_cases hk : k0 = k
    · simp only [alSet, if_pos hk, List.map_cons, List.mem_cons] at h
      rcases h with h | h
      · exact Or.inl h
      · exact Or.inr (by simp [h])
    · simp only [alSet, if_neg hk, List.map_cons, List.mem_cons] at h
      rcases h with h | h
      · exact Or.inr (by simp [h])
      · rcases ih h with h | h
        · exact Or.inl h
        · exact Or.inr (by simp [h])

theorem keysNodup_alSet {α : Type} (l : List (String × α)) (k : String) (v : α)
    (h : keysNodup l) : keysNodup (alSet l k v) := by
  induction l with
  | nil => simp [keysNodup, alSet]
  | cons hd t ih =>
    obtain ⟨k0, v0⟩ := hd
    simp only [keysNodup, List.map_cons, List.nodup_cons] at h
    by_cases hk : k0 = k
    · subst hk
      simpa [keysNodup, alSet, List.nodup_cons] using h
    · have ht := ih h.2
      simp only [keysNodup, alSet, if_neg hk, List.map_cons, List.nodup_cons]
      refine ⟨fun hmem => ?_, ht⟩
      rcases keys_alSet_mem t k v k0 hmem with he | he
      · exact hk he
      · exact h.1 he

theorem keys_alDel_sublist {α : Type} (l : List (String × α)) (k : String) :
    ((alDel l k).map Prod.fst).Sublist (l.map Prod.fst) := by
  induction l with
  | nil => simp [alDel]
  | cons hd t ih =>
    obtain ⟨k0, v0⟩ := hd
    by_cases hk : k0 = k
    · simpa [alDel, hk] using ih.trans (List.sublist_cons_self _ _)
    · simpa [alDel, hk] using ih.cons₂ k0

theorem keysNodup_alDel {α : Type} (l : List (String × α)) (k : String)
    (h : keysNodup l) : keysNodup (alDel l k) :=
  (keys_alDel_sublist l k).nodup h

theorem completionsFor_append {D : Type} (id : String) (cs cs' : List (Completion D)) :
    completionsFor id (cs ++ cs') = completionsFor id cs ++ completionsFor id cs' := by
  simp [completionsFor, List.filter_append]

theorem mem_eraseTimer_self (l : List Nat) (t : Nat) : t ∉ eraseTimer l t := by
  simp [eraseTimer, List.mem_filter]

/-! Shape lemmas for the operations. -/

theorem respCompletion_cid {D : Type} (s : String) (p : Payload D) :
    (respCompletion s p).cid = s := by
  by_cases h : isSuccessResponse p <;> simp [respCompletion, h, Completion.cid]

theorem respCompletion_kind {D : Type} (s : String) (p : Payload D) :
    completionKindOK (respCompletion s p) = true := by
  by_cases h : isSuccessResponse p <;> simp [respCompletion, h, completionKindOK]

/-- Routing either leaves the whole state unchanged with no completions, or
settles exactly the pending request matching the id of the envelope. -/
theorem route_cases {D : Type} (env : HandlerEnv D) (ir : Bool) (st : BridgeState D)
    (p : Payload D) :
    ((route env ir st p).1 = st ∧ (route env ir st p).2.1 = []) ∨
    (∃ s e, p.id = some s ∧ alGet st.pendingPromises s = some e ∧
      route env ir st p = ((respondTo st s e p).1, (respondTo st s e p).2, [])) := by
  cases hid : p.id with
  | none =>
    left
    simp only [route, hid, lookupPending]
    cases hak : actionKey p with
    | none => simp
    | some a =>
      cases hl : alGet st.eventListeners a with
      | none => simp [hl]
      | some l => cases ir <;> simp [hl, handleEvent]
  | some s =>
    cases hl : alGet st.pendingPromises s with
    | none =>
      left
      simp only [route, hid, lookupPending, hl, Option.map_none']
      cases hak : actionKey p with
      | none => simp
      | some a =>
        cases hl' : alGet st.eventListeners a with
        | none => simp [hl']
        | some l => cases ir <;> simp [hl', handleEvent]
    | some e =>
      right
      exact ⟨s, e, rfl, hl, by simp [route, hid, lookupPending, hl]⟩

/-- Dispatch either leaves the pending map unchanged with no completions, or
deletes exactly one pending entry and emits exactly one completion for it, of
one of the four specified kinds. -/
theorem dispatch_cases {D : Type} (env : HandlerEnv D) (ir : Bool) (st : BridgeState D)
    (m : Option (Payload D)) :
    ((dispatch env ir st m).1.pendingPromises = st.pendingPromises ∧
      (dispatch env ir st m).2.1 = []) ∨
    (∃ s e c, alGet st.pendingPromises s = some e ∧
      (dispatch env ir st m).1.pendingPromises = alDel st.pendingPromises s ∧
      (dispatch env ir st m).2.1 = [c] ∧ c.cid = s ∧ completionKindOK c = true) := by
  cases m with
  | none => left; simp [dispatch]
  | some p =>
    cases hid : p.id with
    | some s0 =>
      have hd : dispatch env ir st (some p) = route env ir st p := by
        simp [dispatch, hid]
      rcases route_cases env ir st p with ⟨h1, h2⟩ | ⟨s, e, hids, hl, heq⟩
      · left
        rw [hd, h1]
        exact ⟨rfl, h2⟩
      · right
        refine ⟨s, e, respCompletion s p, hl, ?_, ?_, respCompletion_cid s p,
          respCompletion_kind s p⟩
        · rw [hd, heq]
          simp [respondTo]
        · rw [hd, heq]
          simp [respondTo]
    | none =>
      have hd : dispatch env ir st (some p) =
          (match actionKey p with
           | some a =>
               if (alGet st.eventListeners a).isSome then route env ir st p else (st, [], [])
           | none => (st, [], [])) := by
        simp [dispatch, hid, lookupPending]
      cases hak : actionKey p with
      | none =>
        left
        rw [hd]
        simp [hak]
      | some a =>
        by_cases hreg : (alGet st.eventListeners a).isSome
        · have hd2 : dispatch env ir st (some p) = route env ir st p := by
            rw [hd]; simp [hak, hreg]
          rcases route_cases env ir st p with ⟨h1, h2⟩ | ⟨s, e, hids, hl, heq⟩
          · left
            rw [hd2, h1]
            exact ⟨rfl, h2⟩
          · rw [hid] at hids
            exact absurd hids (by simp)
        · left
          rw [hd]
          simp [hak, hreg]

/-- postMessage either stores the entry (successful send) or stores and
immediately removes it, rejecting with the send error. -/
theorem postMessage_cases {D : Type} (st : BridgeState D) (a : String) (dat : Option D)
    (id : String) (ok : Bool) (tms : Nat) :
    ((postMessage st a dat id ok tms).1.pendingPromises =
        alSet st.pendingPromises id ⟨a, tms, st.nextTimer⟩ ∧
      (postMessage st a dat id ok tms).2 = []) ∨
    ((postMessage st a dat id ok tms).1.pendingPromises =
        alDel (alSet st.pendingPromises id ⟨a, tms, st.nextTimer⟩) id ∧
      (postMessage st a dat id ok tms).2 = [Completion.rejected id BridgeError.send]) := by
  cases ok
  · right; simp [postMessage]
  · left; simp [postMessage]

/-- fireTimeout either finds the id still pending, deletes it and rejects it
with the timeout error, or changes nothing beyond consuming the timer. -/
theorem fireTimeout_cases {D : Type} (st : BridgeState D) (id a : String) (tms t : Nat) :
    ((fireTimeout st id a tms t).1.pendingPromises = st.pendingPromises ∧
      (fireTimeout st id a tms t).2 = []) ∨
    ((alGet st.pendingPromises id).isSome = true ∧
      (fireTimeout st id a tms t).1.pendingPromises = alDel st.pendingPromises id ∧
      (fireTimeout st id a tms t).2 =
        [Completion.rejected id (BridgeError.timeout (timeoutMessage a id tms))]) := by
  cases hl : alGet st.pendingPromises id with
  | none => left; simp [fireTimeout, hl]
  | some e => right; simp [fireTimeout, hl]

/-- The effect of one step on the pending entry of a given identifier that
the step does not issue: either the entry is untouched and no completion for
it is emitted, or it was pending, exactly one completion for it is emitted,
and it is removed. -/
theorem step_at_id {D : Type} {env : HandlerEnv D} {lab : BridgeLabel D}
    {st1 st2 : BridgeState D} {cs : List (Completion D)} (h : Step env lab st1 st2 cs)
    (id : String) (hno : labelIssues id lab = false) :
    (alGet st2.pendingPromises id = alGet st1.pendingPromises id ∧
      completionsFor id cs = []) ∨
    ((alGet st1.pendingPromises id).isSome = true ∧ alGet st2.pendingPromises id = none ∧
      ∃ c, completionsFor id cs = [c]) := by
  obtain ⟨_, hst, hcs⟩ := h
  subst hst
  subst hcs
  cases lab with
  | issue a dat id' ok tms =>
    have hne : id' ≠ id := by simpa [labelIssues] using hno
    left
    simp only [stepResult]
    rcases postMessage_cases st1 a dat id' ok tms with ⟨h1, h2⟩ | ⟨h1, h2⟩
    · rw [h1, h2]
      exact ⟨alGet_alSet_ne _ _ _ _ (Ne.symm hne), by simp [completionsFor]⟩
    · rw [h1, h2]
      refine ⟨?_, ?_⟩
      · rw [alGet_alDel_ne _ _ _ (Ne.symm hne), alGet_alSet_ne _ _ _ _ (Ne.symm hne)]
      · simp [completionsFor, Completion.cid, hne]
  | deliver ir m =>
    simp only [stepResult]
    rcases dispatch_cases env ir st1 m with ⟨h1, h2⟩ | ⟨s, e, c, hl, h1, h2, hcid, hkind⟩
    · left
      rw [h1, h2]
      exact ⟨rfl, by simp [completionsFor]⟩
    · by_cases hs : s = id
      · subst hs
        right
        refine ⟨by simp [hl], by rw [h1]; exact alGet_alDel_self _ _, c, ?_⟩
        rw [h2]
        simp [completionsFor, hcid]
      · left
        refine ⟨by rw [h1]; exact alGet_alDel_ne _ _ _ (fun he => hs he.symm), ?_⟩
        rw [h2]
        simp [completionsFor, hcid, hs]
  | expire id' a tms t =>
    simp only [stepResult]
    rcases fireTimeout_cases st1 id' a tms t with ⟨h1, h2⟩ | ⟨hp, h1, h2⟩
    · left
      rw [h1, h2]
      exact ⟨rfl, by simp [completionsFor]⟩
    · by_cases hs : id' = id
      · subst hs
        right
        refine ⟨hp, by rw [h1]; exact alGet_alDel_self _ _,
          Completion.rejected id' (BridgeError.timeout (timeoutMessage a id' tms)), ?_⟩
        rw [h2]
        simp [completionsFor, Completion.cid]
      · left
        refine ⟨by rw [h1]; exact alGet_alDel_ne _ _ _ (fun he => hs he.symm), ?_⟩
        rw [h2]
        simp [completionsFor, Completion.cid, hs]

/-- Every completion a step emits is of one of the four specified kinds. -/
theorem step_kindOK {D : Type} {env : HandlerEnv D} {lab : BridgeLabel D}
    {st1 st2 : BridgeState D} {cs : List (Completion D)} (h : Step env lab st1 st2 cs) :
    ∀ c ∈ cs, completionKindOK c = true := by
  obtain ⟨_, _, hcs⟩ := h
  subst hcs
  cases lab with
  | issue a dat id' ok tms =>
    simp only [stepResult]
    rcases postMessage_cases st1 a dat id' ok tms with ⟨_, h2⟩ | ⟨_, h2⟩ <;>
      rw [h2] <;> simp [completionKindOK]
  | deliver ir m =>
    simp only [stepResult]
    rcases dispatch_cases env ir st1 m with ⟨_, h2⟩ | ⟨s, e, c, _, _, h2, _, hkind⟩ <;>
      rw [h2]
    · simp
    · simpa using hkind
  | expire id' a tms t =>
    simp only [stepResult]
    rcases fireTimeout_cases st1 id' a tms t with ⟨_, h2⟩ | ⟨_, _, h2⟩ <;>
      rw [h2] <;> simp [completionKindOK]

/-- Every step preserves key uniqueness of the pending map. -/
theorem step_nodup {D : Type} {env : HandlerEnv D} {lab : BridgeLabel D}
    {st1 st2 : BridgeState D} {cs : List (Completion D)} (h : Step env lab st1 st2 cs)
    (hn : keysNodup st1.pendingPromises) : keysNodup st2.pendingPromises := by
  obtain ⟨_, hst, _⟩ := h
  subst hst
  cases lab with
  | issue a dat id' ok tms =>
    simp only [stepResult]
    rcases postMessage_cases st1 a dat id' ok tms with ⟨h1, _⟩ | ⟨h1, _⟩ <;> rw [h1]
    · exact keysNodup_alSet _ _ _ hn
    · exact keysNodup_alDel _ _ (keysNodup_alSet _ _ _ hn)
  | deliver ir m =>
    simp only [stepResult]
    rcases dispatch_cases env ir st1 m with ⟨h1, _⟩ | ⟨s, e, c, _, h1, _, _, _⟩ <;> rw [h1]
    · exact hn
    · exact keysNodup_alDel _ _ hn
  | expire id' a tms t =>
    simp only [stepResult]
    rcases fireTimeout_cases st1 id' a tms t with ⟨h1, _⟩ | ⟨_, h1, _⟩ <;> rw [h1]
    · exact hn
    · exact keysNodup_alDel _ _ hn

/-- The effect of a whole trace on the pending entry of an identifier that no
step of the trace issues. -/
theorem trace_at_id {D : Type} {env : HandlerEnv D} {ls : List (BridgeLabel D)}
    {st st' : BridgeState D} {cs : List (Completion D)} (tr : Trace env ls st st' cs)
    (id : String) (hno : ∀ lab ∈ ls, labelIssues id lab = false) :
    (alGet st'.pendingPromises id = alGet st.pendingPromises id ∧
      completionsFor id cs = []) ∨
    ((alGet st.pendingPromises id).isSome = true ∧ alGet st'.pendingPromises id = none ∧
      ∃ c, completionsFor id cs = [c]) := by
  induction tr with
  | nil st => left; exact ⟨rfl, by simp [completionsFor]⟩
  | cons lab ls st st1 st2 cs cs' hstep htr ih =>
    have h1 := step_at_id hstep id (hno lab (by simp))
    have h2 := ih (fun l hl => hno l (by simp [hl]))
    rw [completionsFor_append]
    rcases h1 with ⟨e1, c1⟩ | ⟨p1, e1, c, c1⟩
    · rcases h2 with ⟨e2, c2⟩ | ⟨p2, e2, c', c2⟩
      · left; exact ⟨e2.trans e1, by rw [c1, c2]; simp⟩
      · right
        refine ⟨?_, e2, c', ?_⟩
        · rw [e1] at p2; exact p2
        · rw [c1, c2]; simp
    · rcases h2 with ⟨e2, c2⟩ | ⟨p2, _, _⟩
      · right; exact ⟨p1, e2.trans e1, c, by rw [c1, c2]; simp⟩
      · rw [e1] at p2; simp at p2

/-- Every completion a trace emits is of one of the four specified kinds. -/
theorem trace_kindOK {D : Type} {env : HandlerEnv D} {ls : List (BridgeLabel D)}
    {st st' : BridgeState D} {cs : List (Completion D)} (tr : Trace env ls st st' cs) :
    ∀ c ∈ cs, completionKindOK c = true := by
  induction tr with
  | nil st => simp
  | cons lab ls st st1 st2 cs cs' hstep htr ih =>
    intro c hc
    rcases List.mem_append.mp hc with hc | hc
    · exact step_kindOK hstep c hc
    · exact ih c hc

/-- A whole trace preserves key uniqueness of the pending map. -/
theorem trace_nodup {D : Type} {env : HandlerEnv D} {ls : List (BridgeLabel D)}
    {st st' : BridgeState D} {cs : List (Completion D)} (tr : Trace env ls st st' cs)
    (hn : keysNodup st.pendingPromises) : keysNodup st'.pendingPromises := by
  induction tr with
  | nil st => exact hn
  | cons lab ls st st1 st2 cs cs' hstep htr ih => exact ih (step_nodup hstep hn)

/-! Helper lemmas shared by the claim theorems. -/

/-- Dispatching an envelope whose id matches a pending entry settles exactly
that entry through respondTo. -/
theorem dispatch_pending {D : Type} (env : HandlerEnv D) (ir : Bool) (st : BridgeState D)
    (p : Payload D) (s : String) (e : PendingPromise) (hid : p.id = some s)
    (hp : alGet st.pendingPromises s = some e) :
    dispatch env ir st (some p) = ((respondTo st s e p).1, (respondTo st s e p).2, []) := by
  have hd : dispatch env ir st (some p) = route env ir st p := by simp [dispatch, hid]
  rw [hd]
  simp [route, hid, lookupPending, hp]

/-- Dispatching an event envelope for a registered action with no pending id
match leaves the state unchanged and emits one acknowledgement per listener
when the acknowledgement channel was ready at dispatch time, and none
otherwise. -/
theorem dispatch_event {D : Type} (env : HandlerEnv D) (ir : Bool) (st : BridgeState D)
    (p : Payload D) (a : String) (l : List Nat) (ha : p.action = some a) (hane : a ≠ "")
    (hreg : alGet st.eventListeners a = some l) (hnp : lookupPending st p.id = none) :
    dispatch env ir st (some p) = (st, [], if ir then l.map (ackOf env p) else []) := by
  have hak : actionKey p = some a := by simp [actionKey, ha, hane]
  have hroute : route env ir st p = (st, [], if ir then l.map (ackOf env p) else []) := by
    simp only [route, hnp, hak, hreg]
    cases ir <;> simp [handleEvent]
  cases hid : p.id with
  | some s =>
    have hd : dispatch env ir st (some p) = route env ir st p := by simp [dispatch, hid]
    rw [hd, hroute]
  | none =>
    have hd : dispatch env ir st (some p) = route env ir st p := by
      simp [dispatch, hid, lookupPending, hak, hreg]
    rw [hd, hroute]

/-- The source success classification coincides with the success
classification as the specification words it. -/
theorem isSuccess_iff_spec {D : Type} (p : Payload D) :
    isSuccessResponse p = true ↔ specSuccess p := by
  cases hc : p.code with
  | some c => cases he : p.errorMessage <;> simp [isSuccessResponse, specSuccess, hc, he]
  | none => cases he : p.errorMessage <;> simp [isSuccessResponse, specSuccess, hc, he]

/-- A success envelope resolves the request with its data. -/
theorem respCompletion_successEnvelope {D : Type} (i : String) (x : Option D) :
    respCompletion i (successEnvelope i x) = Completion.resolved i x := rfl

/-! The claim theorems. -/

/-- C1: for every request issued via postMessage, exactly one of resolve by
matching response, reject by failure response, reject by timeout, or reject
by synchronous send failure occurs, and the pending entry for its identifier
is removed from the correlation table after that single completion; at any
time there is at most one pending entry per identifier.  Formalised over any
finite run that does not re-issue the identifier: at most one completion for
the identifier is emitted, a completion is emitted exactly when the entry is
gone at the end, every emitted completion is of one of the four kinds, and
key uniqueness of the pending map is preserved by the whole run (hence at
every intermediate state, each being the end state of a prefix run). -/
theorem c1_request_lifecycle {D : Type} {env : HandlerEnv D} {ls : List (BridgeLabel D)}
    {st st' : BridgeState D} {cs : List (Completion D)} (id : String)
    (tr : Trace env ls st st' cs)
    (hno : ∀ lab ∈ ls, labelIssues id lab = false)
    (hpend : (alGet st.pendingPromises id).isSome = true) :
    (completionsFor id cs).length ≤ 1 ∧
    (completionsFor id cs = [] ↔ (alGet st'.pendingPromises id).isSome = true) ∧
    (∀ c ∈ cs, completionKindOK c = true) ∧
    (keysNodup st.pendingPromises → keysNodup st'.pendingPromises) := by
  rcases trace_at_id tr id hno with ⟨e1, c1⟩ | ⟨p1, e1, c, c1⟩
  · refine ⟨by rw [c1]; simp, ?_, trace_kindOK tr, fun h => trace_nodup tr h⟩
    rw [c1, e1]
    simp [hpend]
  · refine ⟨by rw [c1]; simp, ?_, trace_kindOK tr, fun h => trace_nodup tr h⟩
    rw [c1, e1]
    simp

/-- Witness for C1 at a concrete one-step run: delivering a success response
for the pending request A. -/
theorem c1_request_lifecycle_witness :
    (completionsFor "A"
        ((stepResult envW (BridgeLabel.deliver true (some (successEnvelope "A" (some 7)))) stW).2
          ++ [])).length ≤ 1 ∧
    (completionsFor "A"
        ((stepResult envW (BridgeLabel.deliver true (some (successEnvelope "A" (some 7)))) stW).2
          ++ []) = [] ↔
      (alGet (stepResult envW (BridgeLabel.deliver true (some (successEnvelope "A" (some 7))))
          stW).1.pendingPromises "A").isSome = true) ∧
    (∀ c ∈ ((stepResult envW (BridgeLabel.deliver true (some (successEnvelope "A" (some 7))))
        stW).2 ++ []), completionKindOK c = true) ∧
    (keysNodup stW.pendingPromises →
      keysNodup (stepResult envW (BridgeLabel.deliver true (some (successEnvelope "A" (some 7))))
        stW).1.pendingPromises) := by
  have tr : Trace envW [BridgeLabel.deliver true (some (successEnvelope "A" (some 7)))] stW
      (stepResult envW (BridgeLabel.deliver true (some (successEnvelope "A" (some 7)))) stW).1
      ((stepResult envW (BridgeLabel.deliver true (some (successEnvelope "A" (some 7)))) stW).2
        ++ []) :=
    Trace.cons _ _ _ _ _ _ _ ⟨trivial, rfl, rfl⟩ (Trace.nil _)
  exact c1_request_lifecycle "A" tr
    (by intro lab hl; rw [List.mem_singleton] at hl; subst hl; rfl) (by decide)

/-- C2: for every dispatched response envelope whose id matches a pending
request, the promise resolves with the envelope data exactly when code is
present and lies in [200, 300) or both code and errorMessage are absent, and
in every other case the promise is rejected.  The only-an-id instance is the
witness below. -/
theorem c2_success_classification {D : Type} (env : HandlerEnv D) (ir : Bool)
    (st : BridgeState D) (p : Payload D) (s : String) (e : PendingPromise)
    (hid : p.id = some s) (hp : alGet st.pendingPromises s = some e) :
    ((dispatch env ir st (some p)).2.1 = [Completion.resolved s p.data] ↔ specSuccess p) ∧
    (¬ specSuccess p → (dispatch env ir st (some p)).2.1 =
      [Completion.rejected s (BridgeError.response (failureMessage p) p.code)]) := by
  have hd := dispatch_pending env ir st p s e hid hp
  have hcomps : (dispatch env ir st (some p)).2.1 = [respCompletion s p] := by
    rw [hd]; simp [respondTo]
  constructor
  · rw [hcomps]
    constructor
    · intro h
      by_cases hsuc : isSuccessResponse p = true
      · exact (isSuccess_iff_spec p).mp hsuc
      · rw [Bool.not_eq_true] at hsuc
        simp [respCompletion, hsuc] at h
    · intro h
      simp [respCompletion, (isSuccess_iff_spec p).mpr h]
  · intro h
    have hsuc : isSuccessResponse p = false := by
      rw [← Bool.not_eq_true]
      exact fun hx => h ((isSuccess_iff_spec p).mp hx)
    rw [hcomps]
    simp [respCompletion, hsuc]

/-- Witness for C2: an envelope with only an id, no code and no errorMessage,
for the pending request A resolves as success with no data. -/
theorem c2_success_classification_witness :
    (dispatch envW true stW (some pOnlyId)).2.1 =
      [Completion.resolved "A" (none : Option Nat)] ∧ specSuccess pOnlyId := by
  have h := c2_success_classification envW true stW pOnlyId "A"
    { action := "act", timeoutMs := 100, timer := 0 } rfl (by decide)
  exact ⟨h.1.mpr (Or.inr ⟨rfl, rfl⟩), Or.inr ⟨rfl, rfl⟩⟩

/-- C3 counterexample: the envelope with id A, code 0 and empty errorMessage
is classified as failure, the errorMessage is present, yet the rejection
message is the synthesized one naming unknown rather than the (empty)
errorMessage, and unknown is used even though code is present: JS truthiness
treats the number 0 and the empty string as absent. -/
theorem c3_message_counterexample :
    pFalsy.errorMessage = some "" ∧ pFalsy.code = some 0 ∧
    (dispatch envW true stW (some pFalsy)).2.1 =
      [Completion.rejected "A"
        (BridgeError.response "Flutter request failed with code unknown" (some 0))] ∧
    ("Flutter request failed with code unknown" : String) ≠ "" := by
  refine ⟨rfl, rfl, by decide, by decide⟩

/-- C3 as amended: for every dispatched response envelope classified as
failure, the rejection message is the errorMessage of the envelope when it is
present AND non-empty; otherwise it is the synthesized message naming the
code, where the code text is the decimal rendering of the code when it is
present and non-zero and the string unknown when the code is absent or zero;
the code field of the envelope is attached to the rejection error. -/
theorem c3_failure_message {D : Type} (env : HandlerEnv D) (ir : Bool) (st : BridgeState D)
    (p : Payload D) (s : String) (e : PendingPromise) (hid : p.id = some s)
    (hp : alGet st.pendingPromises s = some e) (hfail : isSuccessResponse p = false) :
    (dispatch env ir st (some p)).2.1 =
      [Completion.rejected s (BridgeError.response (failureMessage p) p.code)] ∧
    (∀ m, p.errorMessage = some m → m ≠ "" → failureMessage p = m) ∧
    ((p.errorMessage = none ∨ p.errorMessage = some "") →
      failureMessage p = "Flutter request failed with code " ++ codeText p.code) ∧
    (∀ c, p.code = some c → c ≠ 0 → codeText p.code = toString c) ∧
    ((p.code = none ∨ p.code = some 0) → codeText p.code = "unknown") := by
  refine ⟨?_, ?_, ?_, ?_, ?_⟩
  · have hd := dispatch_pending env ir st p s e hid hp
    rw [hd]
    simp [respondTo, respCompletion, hfail]
  · intro m hm hne
    simp [failureMessage, hm, hne]
  · rintro (hm | hm) <;> simp [failureMessage, hm]
  · intro c hc hne
    simp [codeText, hc, hne]
  · rintro (hc | hc) <;> simp [codeText, hc]

/-- Witness for C3 as amended, at the falsy envelope: the rejection carries
the synthesized unknown message with code 0 attached. -/
theorem c3_failure_message_witness :
    (dispatch envW true stW (some pFalsy)).2.1 =
      [Completion.rejected "A" (BridgeError.response (failureMessage pFalsy) pFalsy.code)] ∧
    ((pFalsy.errorMessage = none ∨ pFalsy.errorMessage = some "") →
      failureMessage pFalsy = "Flutter request failed with code " ++ codeText pFalsy.code) ∧
    ((pFalsy.code = none ∨ pFalsy.code = some 0) → codeText pFalsy.code = "unknown") := by
  have h := c3_failure_message envW true stW pFalsy "A"
    { action := "act", timeoutMs := 100, timer := 0 } rfl (by decide) (by decide)
  exact ⟨h.1, h.2.2.1, h.2.2.2.2⟩

/-- C4: responses are matched by identifier only, never by arrival order:
with two distinct identifiers pending, delivering the two success responses
in the reverse of issue order completes each request with the payload carried
by the response bearing its own identifier. -/
theorem c4_order_independence {D : Type} (env1 env2 : HandlerEnv D) (ir1 ir2 : Bool)
    (st : BridgeState D) (idA idB : String) (dA dB : Option D) (eA eB : PendingPromise)
    (hA : alGet st.pendingPromises idA = some eA)
    (hB : alGet st.pendingPromises idB = some eB) (hne : idA ≠ idB) :
    (dispatch env1 ir1 st (some (successEnvelope idB dB))).2.1 =
      [Completion.resolved idB dB] ∧
    (dispatch env2 ir2 (dispatch env1 ir1 st (some (successEnvelope idB dB))).1
        (some (successEnvelope idA dA))).2.1 = [Completion.resolved idA dA] := by
  have h1 := dispatch_pending env1 ir1 st (successEnvelope idB dB) idB eB rfl hB
  constructor
  · rw [h1]
    simp [respondTo, respCompletion_successEnvelope]
  · have hst1 : (dispatch env1 ir1 st (some (successEnvelope idB dB))).1.pendingPromises =
        alDel st.pendingPromises idB := by
      rw [h1]; simp [respondTo]
    have hA2 : alGet (dispatch env1 ir1 st
        (some (successEnvelope idB dB))).1.pendingPromises idA = some eA := by
      rw [hst1, alGet_alDel_ne _ _ _ hne]; exact hA
    have h2 := dispatch_pending env2 ir2 _ (successEnvelope idA dA) idA eA rfl hA2
    rw [h2]
    simp [respondTo, respCompletion_successEnvelope]

/-- Witness for C4 at the concrete state with A and B pending: responses
delivered as B then A, each resolving with its own payload. -/
theorem c4_order_independence_witness :
    (dispatch envW true stW (some (successEnvelope "B" (some 20)))).2.1 =
      [Completion.resolved "B" (some 20)] ∧
    (dispatch envW true (dispatch envW true stW (some (successEnvelope "B" (some 20)))).1
        (some (successEnvelope "A" (some 10)))).2.1 =
      [Completion.resolved "A" (some 10)] :=
  c4_order_independence envW envW true true stW "A" "B" (some 10) (some 20)
    { action := "act", timeoutMs := 100, timer := 0 }
    { action := "act2", timeoutMs := 100, timer := 1 }
    (by decide) (by decide) (by decide)

/-- C5: when the timeout timer of a still-pending request fires, the request
is rejected with the timeout error naming the action and the identifier in
the fixed message template, the entry is removed, and the one-shot timer of
that request is no longer active afterwards. -/
theorem c5_timeout_rejection {D : Type} (st : BridgeState D) (id : String)
    (e : PendingPromise) (hp : alGet st.pendingPromises id = some e) :
    (fireTimeout st id e.action e.timeoutMs e.timer).2 =
      [Completion.rejected id (BridgeError.timeout
        ("FlutterBridgeSDK: Request timed out for action \"" ++ e.action ++ "\" (id: "
          ++ id ++ ") after " ++ toString e.timeoutMs ++ "ms"))] ∧
    alGet (fireTimeout st id e.action e.timeoutMs e.timer).1.pendingPromises id = none ∧
    e.timer ∉ (fireTimeout st id e.action e.timeoutMs e.timer).1.activeTimers := by
  refine ⟨?_, ?_, ?_⟩
  · simp [fireTimeout, hp, timeoutMessage]
  · simp [fireTimeout, hp, alGet_alDel_self]
  · simp only [fireTimeout, hp]
    exact mem_eraseTimer_self _ _

/-- Witness for C5: the timeout of pending request A fires in the concrete
state. -/
theorem c5_timeout_rejection_witness :
    (fireTimeout stW "A" "act" 100 0).2 =
      [Completion.rejected "A" (BridgeError.timeout
        ("FlutterBridgeSDK: Request timed out for action \"" ++ "act" ++ "\" (id: "
          ++ "A" ++ ") after " ++ toString (100 : Nat) ++ "ms"))] ∧
    alGet (fireTimeout stW "A" "act" 100 0).1.pendingPromises "A" = none ∧
    (0 : Nat) ∉ (fireTimeout stW "A" "act" 100 0).1.activeTimers :=
  c5_timeout_rejection stW "A" { action := "act", timeoutMs := 100, timer := 0 } (by decide)

/-- C6: dispatching an event envelope for an action with registered listeners
while the acknowledgement channel is ready leaves the whole state unchanged
(so no other registered handler is affected) and sends one acknowledgement
per listener: with the action, the result as data, the original id and code
200 when the listener promise fulfills, and with the action, the original id
and code 500 when it rejects. -/
theorem c6_handler_acknowledgement {D : Type} (env : HandlerEnv D) (st : BridgeState D)
    (p : Payload D) (a : String) (l : List Nat) (ha : p.action = some a) (hane : a ≠ "")
    (hreg : alGet st.eventListeners a = some l) (hnp : lookupPending st p.id = none) :
    (dispatch env true st (some p)).1 = st ∧
    (dispatch env true st (some p)).2.2 = l.map (ackOf env p) ∧
    (∀ cb r, env cb p.data = Except.ok r →
      ackOf env p cb = { action := p.action, data := r, id := p.id, code := 200 }) ∧
    (∀ cb er, env cb p.data = Except.error er →
      ackOf env p cb = { action := p.action, data := none, id := p.id, code := 500 }) := by
  have hd := dispatch_event env true st p a l ha hane hreg hnp
  rw [hd]
  refine ⟨rfl, by simp, ?_, ?_⟩
  · intro cb r h
    simp [ackOf, h]
  · intro cb er h
    simp [ackOf, h]

/-- Witness for C6 at the concrete state: the listener 5 for action evt
fulfills with 1, and the acknowledgement carries action, data 1, the original
id E1 and code 200. -/
theorem c6_handler_acknowledgement_witness :
    (dispatch envW true stW (some pEvt)).1 = stW ∧
    (dispatch envW true stW (some pEvt)).2.2 = [5].map (ackOf envW pEvt) ∧
    (∀ cb r, envW cb pEvt.data = Except.ok r →
      ackOf envW pEvt cb = { action := pEvt.action, data := r, id := pEvt.id, code := 200 }) ∧
    (∀ cb er, envW cb pEvt.data = Except.error er →
      ackOf envW pEvt cb = { action := pEvt.action, data := none, id := pEvt.id, code := 500 }) :=
  c6_handler_acknowledgement envW stW pEvt "evt" [5] rfl (by decide) (by decide) (by decide)

/-- C7: the claim says the dispatcher waits for the acknowledgement channel
and then sends the acknowledgement over it.  The source does await readiness
when the captured innerBridge is null, but afterwards still sends through the
stale captured reference with optional chaining, so no acknowledgement is
ever sent on this path: with the channel not ready at dispatch time the
acknowledgement list is empty, while the same dispatch with the channel ready
produces the acknowledgement. -/
theorem c7_ack_dropped_when_channel_unready :
    (dispatch envW false stW (some pEvt)) = (stW, [], []) ∧
    envW 5 pEvt.data = Except.ok (some 1) ∧
    alGet stW.eventListeners "evt" = some [5] ∧
    (dispatch envW true stW (some pEvt)).2.2 =
      [{ action := some "evt", data := some 1, id := some "E1", code := 200 }] := by
  refine ⟨by decide, rfl, by decide, by decide⟩

/-- C8: a raw inbound string that JSON.parse throws on is modelled as the
parse result none; dispatch is a total function that returns the state
unchanged with no completions and no acknowledgements, so nothing escapes the
inbound entry point and neither the pending map nor the listener map
changes. -/
theorem c8_malformed_json_no_effect {D : Type} (env : HandlerEnv D) (ir : Bool)
    (st : BridgeState D) :
    dispatch env ir st none = (st, [], []) ∧
    (dispatch env ir st none).1.pendingPromises = st.pendingPromises ∧
    (dispatch env ir st none).1.eventListeners = st.eventListeners :=
  ⟨rfl, rfl, rfl⟩

/-- C9: registering a second, distinct handler for an action that already
holds one evicts the existing handler: afterwards the action maps to exactly
the new handler, every subsequent dispatch of that action produces exactly
the acknowledgement of the new handler and never one of the evicted handler,
and the at-most-one-handler-per-action invariant is preserved. -/
theorem c9_handler_eviction {D : Type} (st : BridgeState D) (a : String) (cb1 cb2 : Nat)
    (hreg : alGet st.eventListeners a = some [cb1]) (hne : cb2 ≠ cb1) :
    alGet (listenMessage st a cb2).eventListeners a = some [cb2] ∧
    (∀ (env : HandlerEnv D) (p : Payload D), p.action = some a → a ≠ "" →
      lookupPending (listenMessage st a cb2) p.id = none →
      (dispatch env true (listenMessage st a cb2) (some p)).2.2 = [ackOf env p cb2]) ∧
    (registryAtMostOne st → registryAtMostOne (listenMessage st a cb2)) := by
  have hlm : listenMessage st a cb2 =
      { st with eventListeners := alSet st.eventListeners a [cb2] } := by
    simp [listenMessage, hreg, hne]
  have hget : alGet (listenMessage st a cb2).eventListeners a = some [cb2] := by
    rw [hlm]
    exact alGet_alSet_self _ _ _
  refine ⟨hget, ?_, ?_⟩
  · intro env p hpa hane hnp
    have hd := dispatch_event env true (listenMessage st a cb2) p a [cb2] hpa hane hget hnp
    rw [hd]
    simp
  · intro h a2 l2 hl2
    by_cases haa : a2 = a
    · subst haa
      rw [hget] at hl2
      cases hl2
      simp
    · rw [hlm] at hl2
      simp only at hl2
      rw [alGet_alSet_ne _ _ _ _ haa] at hl2
      exact h a2 l2 hl2

/-- Witness for C9: registering handler 9 over the registered handler 5 for
action evt in the concrete state. -/
theorem c9_handler_eviction_witness :
    alGet (listenMessage stW "evt" 9).eventListeners "evt" = some [9] ∧
    (∀ (env : HandlerEnv Nat) (p : Payload Nat), p.action = some "evt" → "evt" ≠ "" →
      lookupPending (listenMessage stW "evt" 9) p.id = none →
      (dispatch env true (listenMessage stW "evt" 9) (some p)).2.2 = [ackOf env p 9]) ∧
    (registryAtMostOne stW → registryAtMostOne (listenMessage stW "evt" 9)) :=
  c9_handler_eviction stW "evt" 5 9 (by decide) (by decide)

/-- C10 counterexample: registering the identical handler 7 a second time for
action a is indeed a no-op on the registry, but the returned cancel function
is not no-op-equivalent: invoking it removes the current registration of the
action entirely, so the existing registration stops being effective. -/
theorem c10_cancel_counterexample :
    alGet stDup.eventListeners "a" = some [7] ∧
    listenMessage stDup "a" 7 = stDup ∧
    alGet (cancelListen (listenMessage stDup "a" 7) "a").eventListeners "a" = none := by
  refine ⟨by decide, by decide, by decide⟩

/-- C10 as amended: registering the identical handler reference a second time
for the same action leaves the registry unchanged (a no-op, with a warning),
and the returned cancel function is the ordinary cancel for that action:
invoking it removes whatever is currently registered under the action, rather
than being a no-op. -/
theorem c10_duplicate_registration {D : Type} (st : BridgeState D) (a : String) (cb : Nat)
    (l : List Nat) (hreg : alGet st.eventListeners a = some l)
    (hmem : l.contains cb = true) :
    listenMessage st a cb = st ∧
    alGet (cancelListen st a).eventListeners a = none := by
  constructor
  · have hm : cb ∈ l := by simpa using hmem
    simp [listenMessage, hreg, hm]
  · simp only [cancelListen, hreg, Option.isSome_some, if_pos]
    exact alGet_alDel_self _ _

/-- Witness for C10 as amended at the concrete duplicate registration. -/
theorem c10_duplicate_registration_witness :
    listenMessage stDup "a" 7 = stDup ∧
    alGet (cancelListen stDup "a").eventListeners "a" = none :=
  c10_duplicate_registration stDup "a" 7 [7] (by decide) (by decide)

end FlutterBridge
